import Mathlib

/-!
# Verification of the Nonlinear_Solver_GUI numerical core and GUI dispatch

A shallow embedding of the repository's root-finding code. The GUI layer
(`gui/tabs.py`) is embedded from the source; the numerical core
(`solvers/equations.py`, `solvers/systems.py`, `utils/validation.py`) is not
present under `src/`, so those routines are modelled from the spec
(sections 4.1–4.5, 6 and 7), as noted on each definition. Real numbers are
embedded as exact rationals (ℚ): the claims under study are about control
flow, guards and returned structure, not floating-point rounding.
-/

namespace NonlinearSolver

/-- Modelled from the spec: the documented maximum-iteration constant of
section 7 (NonConvergence), suggested as 1000 in section 4.2; the solver
sources are missing from `src/`. -/
def MAX_ITERATIONS : Nat := 1000

/-- Modelled from the spec (section 7): the error taxonomy returned by the
solvers as explicit failure values. -/
inductive Failure where
  | invalidInput
  | divisionByZero
  | nonConvergence
  deriving DecidableEq, Repr

/-- A scalar solver result (spec section 3): root, residual = f(root), and
the completed iteration count. -/
structure ScalarResult where
  root : ℚ
  residual : ℚ
  iterations : Nat
  deriving DecidableEq, Repr

/-- A system solver result (spec section 3): the solution pair, the
completed iteration count, and the chronological per-step error history. -/
structure SystemResult where
  solution : ℚ × ℚ
  iterations : Nat
  history : List (ℚ × ℚ)
  deriving DecidableEq, Repr

/-- Modelled from the spec (section 4.1): `utils/validation.py`'s
`validate_interval` is missing from `src/`. Fails when `a >= b`, fails when
`f(a) * f(b) > 0`, succeeds otherwise (including `f(a) * f(b) == 0`). -/
def validate_interval (a b : ℚ) (f : ℚ → ℚ) : Bool × String :=
  if a ≥ b then
    (false, "Invalid interval: a must be less than b")
  else if f a * f b > 0 then
    (false, "No sign change: f(a) * f(b) > 0, no guaranteed root")
  else
    (true, "OK")

/-- Modelled from the spec (section 4.2): the chord-method loop of
`solvers/equations.py`, missing from `src/`. Fuel-bounded by the iteration
cap; `iters` counts completed steps. Each step guards the denominator,
computes `x = a - f(a) * (b - a) / (f(b) - f(a))`, stops when
`|f(x)| < eps`, else shrinks the bracket by the sign test. -/
def chordGo (f : ℚ → ℚ) (eps : ℚ) : Nat → ℚ → ℚ → Nat → Except Failure ScalarResult
  | 0, _, _, _ => .error .nonConvergence
  | fuel + 1, a, b, iters =>
    if f b - f a = 0 then .error .divisionByZero
    else
      let x := a - f a * (b - a) / (f b - f a)
      if |f x| < eps then .ok ⟨x, f x, iters + 1⟩
      else if f a * f x < 0 then chordGo f eps fuel a x (iters + 1)
      else chordGo f eps fuel x b (iters + 1)

/-- Modelled from the spec (sections 4.2, 6, 7): `chord_method` of
`solvers/equations.py`, missing from `src/`. Defensively rejects
`eps ≤ 0`, then iterates up to the documented cap. -/
def chord_method (f : ℚ → ℚ) (a b eps : ℚ) : Except Failure ScalarResult :=
  if eps ≤ 0 then .error .invalidInput
  else chordGo f eps MAX_ITERATIONS a b 0

/-- Modelled from the spec (section 4.3): the Newton loop of
`solvers/equations.py`, missing from `src/`. Guards `df(x) = 0`, steps
`x_next = x - f(x)/df(x)`, stops on `|x_next - x| < eps`, returning
`(x_next, f(x_next), count)`. -/
def newtonGo (f df : ℚ → ℚ) (eps : ℚ) : Nat → ℚ → Nat → Except Failure ScalarResult
  | 0, _, _ => .error .nonConvergence
  | fuel + 1, x, iters =>
    if df x = 0 then .error .divisionByZero
    else
      let xn := x - f x / df x
      if |xn - x| < eps then .ok ⟨xn, f xn, iters + 1⟩
      else newtonGo f df eps fuel xn (iters + 1)

/-- Modelled from the spec (sections 4.3, 6, 7): `newton_method` of
`solvers/equations.py`, missing from `src/`. -/
def newton_method (f df : ℚ → ℚ) (x0 eps : ℚ) : Except Failure ScalarResult :=
  if eps ≤ 0 then .error .invalidInput
  else newtonGo f df eps MAX_ITERATIONS x0 0

/-- Modelled from the spec (section 4.4): the scalar fixed-point loop of
`solvers/equations.py`, missing from `src/`. Steps `x_next = phi(x)`, stops
on `|x_next - x| < eps`; the reported residual is `|phi(x_next) - x_next|`
(the spec's contract when the original `f` is unavailable to the
routine). -/
def simpleGo (phi : ℚ → ℚ) (eps : ℚ) : Nat → ℚ → Nat → Except Failure ScalarResult
  | 0, _, _ => .error .nonConvergence
  | fuel + 1, x, iters =>
    let xn := phi x
    if |xn - x| < eps then .ok ⟨xn, |phi xn - xn|, iters + 1⟩
    else simpleGo phi eps fuel xn (iters + 1)

/-- Modelled from the spec (sections 4.4, 6, 7): `simple_iteration_method`
of `solvers/equations.py`, missing from `src/`. -/
def simple_iteration_method (phi : ℚ → ℚ) (x0 eps : ℚ) : Except Failure ScalarResult :=
  if eps ≤ 0 then .error .invalidInput
  else simpleGo phi eps MAX_ITERATIONS x0 0

/-- Modelled from the spec (section 4.5): the 2-variable fixed-point loop
of `solvers/systems.py`, missing from `src/`. Both components are computed
from the same prior pair (synchronous update); each step appends exactly
one `(Δx, Δy)` entry to the history; stops when both deltas are below
`eps`. -/
def systemGo (phi1 phi2 : ℚ → ℚ → ℚ) (eps : ℚ) :
    Nat → ℚ → ℚ → Nat → List (ℚ × ℚ) → Except Failure SystemResult
  | 0, _, _, _, _ => .error .nonConvergence
  | fuel + 1, x, y, iters, errs =>
    let xn := phi1 x y
    let yn := phi2 x y
    let dx := |xn - x|
    let dy := |yn - y|
    if dx < eps ∧ dy < eps then .ok ⟨(xn, yn), iters + 1, errs ++ [(dx, dy)]⟩
    else systemGo phi1 phi2 eps fuel xn yn (iters + 1) (errs ++ [(dx, dy)])

/-- Modelled from the spec (sections 4.5, 6, 7): `system_simple_iteration`
of `solvers/systems.py`, missing from `src/`. -/
def system_simple_iteration (phi1 phi2 : ℚ → ℚ → ℚ) (x0 y0 eps : ℚ) :
    Except Failure SystemResult :=
  if eps ≤ 0 then .error .invalidInput
  else systemGo phi1 phi2 eps MAX_ITERATIONS x0 y0 0 []

/-- The three methods offered by the method combo box of
`EquationTab.init_ui` (`gui/tabs.py`, line 45). -/
inductive Method where
  | chord
  | newton
  | simpleIteration
  deriving DecidableEq, Repr

/-- One record of `utils/config.py`'s `EQUATIONS` registry as consumed by
`EquationTab.solve_equation`: the keys `f`, `df` and `phi`. -/
structure EquationEntry where
  f : ℚ → ℚ
  df : ℚ → ℚ
  phi : ℚ → ℚ

/-- The observable outcome of one `EquationTab.solve_equation` call
(`gui/tabs.py`, lines 69–106): the parse-error message box, the
validation-error message box, or the selected solver's result. -/
inductive SolveOutcome where
  | inputError
  | intervalError (msg : String)
  | solved (r : Except Failure ScalarResult)

/-- `EquationTab.solve_equation` (`gui/tabs.py`, lines 69–98). The three
text fields are given as already-parsed `Option ℚ` (a `float(...)` that
raises `ValueError` is `none`). The interval is validated before any
method dispatch; Newton starts from the endpoint with smaller `|f|`
(line 93), simple iteration from the midpoint (line 97). -/
def solve_equation (entry : EquationEntry) (aText bText epsText : Option ℚ)
    (method : Method) : SolveOutcome :=
  match aText, bText, epsText with
  | some a, some b, some eps =>
    let v := validate_interval a b entry.f
    if v.1 then
      .solved (match method with
        | .chord => chord_method entry.f a b eps
        | .newton =>
            newton_method entry.f entry.df
              (if |entry.f a| < |entry.f b| then a else b) eps
        | .simpleIteration =>
            simple_iteration_method entry.phi ((a + b) / 2) eps)
    else .intervalError v.2
  | _, _, _ => .inputError

/-- The `x² - 2` problem of the spec's section 8 test properties, as an
`EQUATIONS` registry record (`utils/config.py` is missing from `src/`). -/
def sqrt2Entry : EquationEntry :=
  ⟨fun x => x * x - 2, fun x => 2 * x, fun x => (x + 2 / x) / 2⟩

/-- A validated interval has `a < b`. -/
theorem validate_interval_lt {a b : ℚ} {f : ℚ → ℚ}
    (h : (validate_interval a b f).1 = true) : a < b := by
  by_contra hab
  rw [validate_interval, if_pos (not_lt.mp hab)] at h
  exact Bool.false_ne_true h

/-- Claim C2: `validate_interval` fails whenever `a ≥ b` regardless of
`f`; fails whenever `a < b` and `f(a) * f(b) > 0`; and succeeds in all
remaining cases, including the boundary `f(a) * f(b) = 0`. -/
theorem validate_interval_cases (a b : ℚ) (f : ℚ → ℚ) :
    (a ≥ b → (validate_interval a b f).1 = false) ∧
    (a < b → f a * f b > 0 → (validate_interval a b f).1 = false) ∧
    (a < b → f a * f b ≤ 0 → (validate_interval a b f).1 = true) := by
  refine ⟨fun h => ?_, fun h1 h2 => ?_, fun h1 h2 => ?_⟩
  · rw [validate_interval, if_pos h]
  · rw [validate_interval, if_neg (not_le.mpr h1), if_pos h2]
  · rw [validate_interval, if_neg (not_le.mpr h1), if_neg (not_lt.mpr h2)]

/-- `validate_interval_cases` at `f(x) = x² - 2` on `[1, 2]`, a bracketing
interval: validation succeeds. -/
theorem validate_interval_cases_witness :
    (validate_interval 1 2 sqrt2Entry.f).1 = true :=
  (validate_interval_cases 1 2 sqrt2Entry.f).2.2 (by norm_num)
    (by norm_num [sqrt2Entry])

/-- Any successful chord result has `residual = f(root)`, `|residual| < eps`,
and an iteration count that grew from `i` by the completed steps, at most
the available fuel. -/
theorem chordGo_ok (f : ℚ → ℚ) (eps : ℚ) :
    ∀ fuel a b i r, chordGo f eps fuel a b i = .ok r →
      r.residual = f r.root ∧ |r.residual| < eps ∧
      i < r.iterations ∧ r.iterations ≤ i + fuel := by
  intro fuel
  induction fuel with
  | zero => intro a b i r h; exact absurd h (by simp [chordGo])
  | succ n ih =>
    intro a b i r h
    simp only [chordGo] at h
    split_ifs at h with h0 h1 h2
    · injection h with h
      subst h
      exact ⟨rfl, h1, Nat.lt_succ_self i, by show i + 1 ≤ i + (n + 1); omega⟩
    · have := ih a _ (i + 1) r h
      exact ⟨this.1, this.2.1, by omega, by omega⟩
    · have := ih _ b (i + 1) r h
      exact ⟨this.1, this.2.1, by omega, by omega⟩

/-- Any successful Newton result's iteration count grew from `i` by the
completed steps, at most the available fuel. -/
theorem newtonGo_ok (f df : ℚ → ℚ) (eps : ℚ) :
    ∀ fuel x i r, newtonGo f df eps fuel x i = .ok r →
      i < r.iterations ∧ r.iterations ≤ i + fuel := by
  intro fuel
  induction fuel with
  | zero => intro x i r h; exact absurd h (by simp [newtonGo])
  | succ n ih =>
    intro x i r h
    simp only [newtonGo] at h
    split_ifs at h with h0 h1
    · injection h with h
      subst h
      exact ⟨Nat.lt_succ_self i, by show i + 1 ≤ i + (n + 1); omega⟩
    · have := ih _ (i + 1) r h
      exact ⟨by omega, by omega⟩

/-- Any successful simple-iteration result's iteration count grew from `i`
by the completed steps, at most the available fuel. -/
theorem simpleGo_ok (phi : ℚ → ℚ) (eps : ℚ) :
    ∀ fuel x i r, simpleGo phi eps fuel x i = .ok r →
      i < r.iterations ∧ r.iterations ≤ i + fuel := by
  intro fuel
  induction fuel with
  | zero => intro x i r h; exact absurd h (by simp [simpleGo])
  | succ n ih =>
    intro x i r h
    simp only [simpleGo] at h
    split_ifs at h with h1
    · injection h with h
      subst h
      exact ⟨Nat.lt_succ_self i, by show i + 1 ≤ i + (n + 1); omega⟩
    · have := ih _ (i + 1) r h
      exact ⟨by omega, by omega⟩

/-- Any successful system result extends the accumulated history by one
entry per completed step, the count grows accordingly (at most the fuel),
and the last recorded error pair is below `eps` in both components. -/
theorem systemGo_ok (p1 p2 : ℚ → ℚ → ℚ) (eps : ℚ) :
    ∀ fuel x y i errs r, systemGo p1 p2 eps fuel x y i errs = .ok r →
      r.iterations + errs.length = r.history.length + i ∧
      i < r.iterations ∧ r.iterations ≤ i + fuel ∧
      ∃ dx dy, r.history.getLast? = some (dx, dy) ∧ dx < eps ∧ dy < eps := by
  intro fuel
  induction fuel with
  | zero => intro x y i errs r h; exact absurd h (by simp [systemGo])
  | succ n ih =>
    intro x y i errs r h
    simp only [systemGo] at h
    split_ifs at h with hc
    · injection h with h
      subst h
      refine ⟨?_, Nat.lt_succ_self i, by show i + 1 ≤ i + (n + 1); omega,
        |p1 x y - x|, |p2 x y - y|, ?_, hc.1, hc.2⟩
      · show i + 1 + errs.length =
          (errs ++ [(|p1 x y - x|, |p2 x y - y|)]).length + i
        simp only [List.length_append, List.length_cons, List.length_nil]
        omega
      · show (errs ++ [(|p1 x y - x|, |p2 x y - y|)]).getLast? =
          some (|p1 x y - x|, |p2 x y - y|)
        rw [List.getLast?_append_cons]
        rfl
    · have := ih _ _ (i + 1) _ r h
      obtain ⟨hl, hi, hb, hrest⟩ := this
      simp only [List.length_append, List.length_cons, List.length_nil] at hl
      exact ⟨by omega, by omega, by omega, hrest⟩

/-- The divergent fixed-point map `phi(x) = x + 1` never meets the
stopping criterion for any `eps ≤ 1`, so the loop exhausts any fuel. -/
theorem simpleGo_add_one_diverges (eps : ℚ) (heps : eps ≤ 1) :
    ∀ fuel x i, simpleGo (fun t => t + 1) eps fuel x i = .error .nonConvergence := by
  intro fuel
  induction fuel with
  | zero => intro x i; rfl
  | succ n ih =>
    intro x i
    have hcond : ¬ |x + 1 - x| < eps := by
      rw [add_sub_cancel_left, abs_one]
      exact not_lt.mpr heps
    simp only [simpleGo]
    rw [if_neg hcond]
    exact ih (x + 1) (i + 1)

/-- Claim C6: when the Newton method is selected, `solve_equation` invokes
`newton_method` with `x0` equal to the interval endpoint with the smaller
`|f|` (`x0 = a` when `|f(a)| < |f(b)|`, else `x0 = b`), so that
`|f(x0)| ≤ min |f(a)| |f(b)|`. -/
theorem newton_x0_choice (entry : EquationEntry) (a b eps : ℚ)
    (hv : (validate_interval a b entry.f).1 = true) :
    solve_equation entry (some a) (some b) (some eps) .newton =
      .solved (newton_method entry.f entry.df
        (if |entry.f a| < |entry.f b| then a else b) eps) ∧
    |entry.f (if |entry.f a| < |entry.f b| then a else b)| ≤
      min |entry.f a| |entry.f b| := by
  constructor
  · simp only [solve_equation, hv, if_true]
  · split_ifs with h
    · exact le_min le_rfl h.le
    · exact le_min (not_lt.mp h) le_rfl

/-- `newton_x0_choice` at `f(x) = x² - 2` on the bracketing interval
`[1, 2]`: the chosen `x0` has the smaller function magnitude. -/
theorem newton_x0_choice_witness :
    |sqrt2Entry.f (if |sqrt2Entry.f 1| < |sqrt2Entry.f 2| then (1 : ℚ) else 2)| ≤
      min |sqrt2Entry.f 1| |sqrt2Entry.f 2| :=
  (newton_x0_choice sqrt2Entry 1 2 (1 / 1000000)
    (by norm_num [validate_interval, sqrt2Entry])).2

/-- Claim C7: on every `solve_equation` call a solver runs only after
validation succeeded: a `.solved` outcome forces all three inputs to have
parsed and `validate_interval` to have returned `true`; a parse failure
yields the input-error box and no solver call; a failed validation yields
the validation-error box and no solver call. -/
theorem solve_equation_guarded (entry : EquationEntry)
    (aText bText epsText : Option ℚ) (method : Method) :
    (∀ r, solve_equation entry aText bText epsText method = .solved r →
      ∃ a b eps, aText = some a ∧ bText = some b ∧ epsText = some eps ∧
        (validate_interval a b entry.f).1 = true) ∧
    (aText = none ∨ bText = none ∨ epsText = none →
      solve_equation entry aText bText epsText method = .inputError) ∧
    (∀ a b eps, aText = some a → bText = some b → epsText = some eps →
      (validate_interval a b entry.f).1 = false →
      solve_equation entry aText bText epsText method =
        .intervalError (validate_interval a b entry.f).2) := by
  refine ⟨fun r hr => ?_, fun h => ?_, fun a b eps ha hb heps hval => ?_⟩
  · match aText, bText, epsText with
    | some a, some b, some eps =>
      refine ⟨a, b, eps, rfl, rfl, rfl, ?_⟩
      by_contra hval
      simp only [Bool.not_eq_true] at hval
      simp [solve_equation, hval] at hr
    | none, _, _ => simp [solve_equation] at hr
    | some _, none, _ => simp [solve_equation] at hr
    | some _, some _, none => simp [solve_equation] at hr
  · match aText, bText, epsText with
    | some _, some _, some _ => simp at h
    | none, _, _ => rfl
    | some _, none, _ => rfl
    | some _, some _, none => rfl
  · subst ha hb heps
    simp only [solve_equation, hval]
    rfl

/-- `solve_equation_guarded` at a blank `a` field: the parse error is
reported and no solver is invoked. -/
theorem solve_equation_guarded_witness :
    solve_equation sqrt2Entry none (some 2) (some 1) .chord =
      .inputError :=
  (solve_equation_guarded sqrt2Entry none (some 2) (some 1) .chord).2.1
    (Or.inl rfl)

/-- Claim C10: when simple iteration is selected, `solve_equation` calls
`simple_iteration_method` with `x0 = (a + b) / 2`, and under a validated
interval (which forces `a < b`) this midpoint lies strictly inside
`(a, b)`. -/
theorem simple_iteration_midpoint (entry : EquationEntry) (a b eps : ℚ)
    (hv : (validate_interval a b entry.f).1 = true) :
    solve_equation entry (some a) (some b) (some eps) .simpleIteration =
      .solved (simple_iteration_method entry.phi ((a + b) / 2) eps) ∧
    a < (a + b) / 2 ∧ (a + b) / 2 < b := by
  have hab : a < b := validate_interval_lt hv
  refine ⟨?_, by linarith, by linarith⟩
  simp only [solve_equation, hv, if_true]

/-- `simple_iteration_midpoint` at `[1, 2]`: the midpoint `3/2` is
strictly inside the interval. -/
theorem simple_iteration_midpoint_witness :
    (1 : ℚ) < (1 + 2) / 2 ∧ ((1 : ℚ) + 2) / 2 < 2 :=
  (simple_iteration_midpoint sqrt2Entry 1 2 (1 / 1000000)
    (by norm_num [validate_interval, sqrt2Entry])).2

/-- Claim C1: each chord step computes
`x = a - f(a) * (b - a) / (f(b) - f(a))`, returns `(x, f(x), count)` as
soon as `|f(x)| < eps`, replaces `b` by `x` when `f(a) * f(x) < 0` and `a`
by `x` otherwise; every successful `chord_method` result therefore has
`residual = f(root)` with `|residual| < eps`. -/
theorem chord_method_spec :
    (∀ f eps fuel a b i, f b - f a ≠ 0 →
      chordGo f eps (fuel + 1) a b i =
        (let x := a - f a * (b - a) / (f b - f a)
         if |f x| < eps then .ok ⟨x, f x, i + 1⟩
         else if f a * f x < 0 then chordGo f eps fuel a x (i + 1)
         else chordGo f eps fuel x b (i + 1))) ∧
    (∀ f a b eps r, chord_method f a b eps = .ok r →
      r.residual = f r.root ∧ |r.residual| < eps) := by
  constructor
  · intro f eps fuel a b i h
    rw [chordGo, if_neg h]
  · intro f a b eps r h
    rw [chord_method] at h
    split_ifs at h with heps
    · have := chordGo_ok f eps MAX_ITERATIONS a b 0 r h
      exact ⟨this.1, this.2.1⟩

/-- `chord_method_spec` on `f(x) = x` over `[-1, 1]` with `eps = 1`: the
first chord point is the root `0`, returned with its residual below the
tolerance. -/
theorem chord_method_spec_witness :
    ScalarResult.residual ⟨0, 0, 1⟩ =
      (fun x : ℚ => x) (ScalarResult.root ⟨0, 0, 1⟩) ∧
    |ScalarResult.residual (⟨0, 0, 1⟩ : ScalarResult)| < 1 :=
  chord_method_spec.2 (fun x => x) (-1) 1 1 ⟨0, 0, 1⟩ (by
    rw [chord_method, if_neg (by norm_num),
      show MAX_ITERATIONS = 999 + 1 from rfl, chordGo, if_neg (by norm_num)]
    norm_num)

/-- Claim C3: zero denominators are guarded: at any iterate, the chord
loop with `f(b) - f(a) = 0` and the Newton loop with `df(x) = 0` return
the explicit `divisionByZero` failure (a value distinct from any `.ok`
result; the exact-arithmetic embedding produces no NaN or infinity), and
so do `chord_method` and `newton_method` when the condition holds at
entry. -/
theorem division_by_zero_guarded :
    (∀ f eps fuel a b i, f b - f a = 0 →
      chordGo f eps (fuel + 1) a b i = .error .divisionByZero) ∧
    (∀ f df eps fuel x i, df x = 0 →
      newtonGo f df eps (fuel + 1) x i = .error .divisionByZero) ∧
    (∀ f a b eps, 0 < eps → f b - f a = 0 →
      chord_method f a b eps = .error .divisionByZero) ∧
    (∀ f df x0 eps, 0 < eps → df x0 = 0 →
      newton_method f df x0 eps = .error .divisionByZero) := by
  refine ⟨fun f eps fuel a b i h => ?_, fun f df eps fuel x i h => ?_,
    fun f a b eps heps h => ?_, fun f df x0 eps heps h => ?_⟩
  · rw [chordGo, if_pos h]
  · rw [newtonGo, if_pos h]
  · rw [chord_method, if_neg (not_le.mpr heps),
      show MAX_ITERATIONS = 999 + 1 from rfl, chordGo, if_pos h]
  · rw [newton_method, if_neg (not_le.mpr heps),
      show MAX_ITERATIONS = 999 + 1 from rfl, newtonGo, if_pos h]

/-- `division_by_zero_guarded` on the constant function `f(x) = 1` over
`[0, 1]`: the denominator vanishes and the chord method reports the
division-by-zero failure. -/
theorem division_by_zero_guarded_witness :
    chord_method (fun _ => 1) 0 1 1 = .error .divisionByZero :=
  division_by_zero_guarded.2.2.1 (fun _ => 1) 0 1 1 (by norm_num)
    (by norm_num)

/-- Claim C4: every solver call terminates: each loop is fuel-bounded by
the documented constant `MAX_ITERATIONS = 1000`; an exhausted cap yields
the `nonConvergence` failure (distinct from any success), as the divergent
fixed-point map `phi(x) = x + 1` exhibits for `simple_iteration_method`. -/
theorem iteration_cap :
    MAX_ITERATIONS = 1000 ∧
    (∀ f eps a b i, chordGo f eps 0 a b i = .error .nonConvergence) ∧
    (∀ f df eps x i, newtonGo f df eps 0 x i = .error .nonConvergence) ∧
    (∀ phi eps x i, simpleGo phi eps 0 x i = .error .nonConvergence) ∧
    (∀ p1 p2 eps x y i e, systemGo p1 p2 eps 0 x y i e = .error .nonConvergence) ∧
    (∀ x0 eps, 0 < eps → eps ≤ 1 →
      simple_iteration_method (fun t => t + 1) x0 eps = .error .nonConvergence) := by
  refine ⟨rfl, fun _ _ _ _ _ => rfl, fun _ _ _ _ _ => rfl, fun _ _ _ _ => rfl,
    fun _ _ _ _ _ _ _ => rfl, fun x0 eps h0 h1 => ?_⟩
  rw [simple_iteration_method, if_neg (not_le.mpr h0)]
  exact simpleGo_add_one_diverges eps h1 MAX_ITERATIONS x0 0

/-- `iteration_cap` on `phi(x) = x + 1` from `x0 = 0` with `eps = 1`: the
cap is exhausted and non-convergence is reported. -/
theorem iteration_cap_witness :
    simple_iteration_method (fun t => t + 1) 0 1 = .error .nonConvergence :=
  iteration_cap.2.2.2.2.2 0 1 (by norm_num) le_rfl

/-- Claim C5: each system step computes `x_next = phi1(x, y)` and
`y_next = phi2(x, y)` from the same prior pair (synchronous update),
appends exactly one `(|x_next - x|, |y_next - y|)` entry to the history,
and stops when both deltas are below `eps`; hence every successful result
has one history entry per iteration in chronological order, the last one
below `eps` in both components. -/
theorem system_iteration_spec :
    (∀ p1 p2 eps fuel x y i errs,
      systemGo p1 p2 eps (fuel + 1) x y i errs =
        (let xn := p1 x y
         let yn := p2 x y
         let dx := |xn - x|
         let dy := |yn - y|
         if dx < eps ∧ dy < eps then .ok ⟨(xn, yn), i + 1, errs ++ [(dx, dy)]⟩
         else systemGo p1 p2 eps fuel xn yn (i + 1) (errs ++ [(dx, dy)]))) ∧
    (∀ p1 p2 x0 y0 eps r,
      system_simple_iteration p1 p2 x0 y0 eps = .ok r →
      r.history.length = r.iterations ∧
      ∃ dx dy, r.history.getLast? = some (dx, dy) ∧ dx < eps ∧ dy < eps) := by
  constructor
  · intro p1 p2 eps fuel x y i errs
    rw [systemGo]
  · intro p1 p2 x0 y0 eps r h
    rw [system_simple_iteration] at h
    split_ifs at h with heps
    · have := systemGo_ok p1 p2 eps MAX_ITERATIONS x0 y0 0 [] r h
      refine ⟨?_, this.2.2.2⟩
      have h1 := this.1
      simp only [List.length_nil] at h1
      omega

/-- `system_iteration_spec` on the already-converged system
`phi1(x, y) = x`, `phi2(x, y) = y` from `(0, 0)`: one iteration, one
history entry, both deltas zero. -/
theorem system_iteration_spec_witness :
    (SystemResult.history ⟨(0, 0), 1, [(0, 0)]⟩).length =
      SystemResult.iterations ⟨(0, 0), 1, [(0, 0)]⟩ ∧
    ∃ dx dy, (SystemResult.history ⟨(0, 0), 1, [(0, 0)]⟩).getLast? =
      some (dx, dy) ∧ dx < 1 ∧ dy < 1 :=
  system_iteration_spec.2 (fun x _ => x) (fun _ y => y) 0 0 1
    ⟨(0, 0), 1, [(0, 0)]⟩ (by
      rw [system_simple_iteration, if_neg (by norm_num),
        show MAX_ITERATIONS = 999 + 1 from rfl, systemGo]
      norm_num)

/-- Claim C8: every solver defensively rejects a non-positive tolerance:
for `eps ≤ 0` each of the four solvers returns the `invalidInput` failure
without iterating. -/
theorem eps_guard (eps : ℚ) (heps : eps ≤ 0) :
    (∀ f a b, chord_method f a b eps = .error .invalidInput) ∧
    (∀ f df x0, newton_method f df x0 eps = .error .invalidInput) ∧
    (∀ phi x0, simple_iteration_method phi x0 eps = .error .invalidInput) ∧
    (∀ p1 p2 x0 y0, system_simple_iteration p1 p2 x0 y0 eps = .error .invalidInput) := by
  refine ⟨fun f a b => ?_, fun f df x0 => ?_, fun phi x0 => ?_,
    fun p1 p2 x0 y0 => ?_⟩
  · rw [chord_method, if_pos heps]
  · rw [newton_method, if_pos heps]
  · rw [simple_iteration_method, if_pos heps]
  · rw [system_simple_iteration, if_pos heps]

/-- `eps_guard` at `eps = 0`: the chord method rejects the call. -/
theorem eps_guard_witness :
    chord_method (fun x => x) 0 1 0 = .error .invalidInput :=
  (eps_guard 0 le_rfl).1 (fun x => x) 0 1

/-- Claim C9: every successful result's `iterations` counts the completed
steps: it grew by exactly one per step from zero, so it is at least 1 and
at most the cap; in particular `iterations = 0` never occurs on a success,
making the spec's zero-iteration edge case vacuously safe. -/
theorem iterations_count :
    (∀ f a b eps r, chord_method f a b eps = .ok r →
      1 ≤ r.iterations ∧ r.iterations ≤ MAX_ITERATIONS) ∧
    (∀ f df x0 eps r, newton_method f df x0 eps = .ok r →
      1 ≤ r.iterations ∧ r.iterations ≤ MAX_ITERATIONS) ∧
    (∀ phi x0 eps r, simple_iteration_method phi x0 eps = .ok r →
      1 ≤ r.iterations ∧ r.iterations ≤ MAX_ITERATIONS) ∧
    (∀ p1 p2 x0 y0 eps r, system_simple_iteration p1 p2 x0 y0 eps = .ok r →
      1 ≤ r.iterations ∧ r.iterations ≤ MAX_ITERATIONS) := by
  refine ⟨fun f a b eps r h => ?_, fun f df x0 eps r h => ?_,
    fun phi x0 eps r h => ?_, fun p1 p2 x0 y0 eps r h => ?_⟩
  · rw [chord_method] at h
    split_ifs at h
    have := chordGo_ok f eps MAX_ITERATIONS a b 0 r h
    exact ⟨by omega, by omega⟩
  · rw [newton_method] at h
    split_ifs at h
    have := newtonGo_ok f df eps MAX_ITERATIONS x0 0 r h
    exact ⟨by omega, by omega⟩
  · rw [simple_iteration_method] at h
    split_ifs at h
    have := simpleGo_ok phi eps MAX_ITERATIONS x0 0 r h
    exact ⟨by omega, by omega⟩
  · rw [system_simple_iteration] at h
    split_ifs at h
    have := systemGo_ok p1 p2 eps MAX_ITERATIONS x0 y0 0 [] r h
    exact ⟨by omega, by omega⟩

/-- `iterations_count` on Newton for `f(x) = x` from the root `x0 = 0`
with `eps = 1`: one completed step is reported. -/
theorem iterations_count_witness :
    1 ≤ ScalarResult.iterations ⟨0, 0, 1⟩ ∧
    ScalarResult.iterations (⟨0, 0, 1⟩ : ScalarResult) ≤ MAX_ITERATIONS :=
  iterations_count.2.1 (fun x => x) (fun _ => 1) 0 1 ⟨0, 0, 1⟩ (by
    rw [newton_method, if_neg (by norm_num),
      show MAX_ITERATIONS = 999 + 1 from rfl, newtonGo, if_neg (by norm_num)]
    norm_num)

end NonlinearSolver
